import Mathlib

/-!
Verification of the GiveWell cost-effectiveness (CEA) benchmark pipeline.

The repository's computational core — the impact estimator, adjustment chain
and benchmark engine — is specified in the design document; the repository
itself contains the spreadsheet-extraction and verification scripts.  The
core operations below are therefore modelled from the spec, while
`compare_values` is embedded directly from `verify_cea_full.py`.

All real arithmetic is modelled over `ℚ` (exact rational arithmetic), so
"within floating tolerance" claims become exact equalities.
-/

namespace GiveWellCEA

/-- Modelled from the spec: the error taxonomy of §7.  All errors are
input-validation failures (`InvalidParameter`, `InvalidAdjustment`,
`UnknownRegion`, `RegistryNotReady`, `BenchmarkUndefined`). -/
inductive CEAError where
  | invalidParameter
  | invalidAdjustment
  | unknownRegion
  | registryNotReady
  | benchmarkUndefined
deriving DecidableEq, Repr

/-- Modelled from the spec: the mortality-type program variants of §2/§4.1
(net distribution, seasonal chemoprevention, vitamin-A supplementation,
vaccination reminder). -/
inductive ProgramVariant where
  | netDistribution
  | seasonalChemoprevention
  | vitaminA
  | vaccinationReminder
deriving DecidableEq, Repr

/-- Of the mortality-type variants, only seasonal chemoprevention is a
seasonal program (its coverage folds in the seasonal-exposure proportion). -/
def ProgramVariant.seasonal : ProgramVariant → Bool
  | .seasonalChemoprevention => true
  | _ => false

/-- Modelled from the spec: an adjustment factor (§3), a named signed
fractional value; its canonical stage position is its position in the
parameter record's adjustment list. -/
structure AdjustmentFactor where
  name : String
  value : ℚ
deriving DecidableEq, Repr

/-- Modelled from the spec: the `InterventionParameters` record of §3 for
mortality-type variants: grant size, cost per unit reached, mortality rate,
effect size, seasonal-exposure proportion, counterfactual-reach proportion,
moral weight and the ordered adjustment fractions. -/
structure InterventionParameters where
  grantSize : ℚ
  costPerUnitReached : ℚ
  mortalityRate : ℚ
  effectSize : ℚ
  counterfactualReach : ℚ
  seasonalProportion : ℚ
  moralWeight : ℚ
  adjustments : List AdjustmentFactor
deriving DecidableEq, Repr

/-- Modelled from the spec: the diagnostics record returned by
`estimate` (§4.1): intermediate reach and coverage-adjusted reach. -/
structure EstimateDiagnostics where
  reach : ℚ
  coverageAdjustedReach : ℚ
deriving DecidableEq, Repr

/-- Modelled from the spec: `effectiveCoverageAdjustment` folds in the
counterfactual-reach proportion and, for seasonal programs, the
seasonal-exposure proportion (§4.1). -/
def effectiveCoverageAdjustment (variant : ProgramVariant) (p : InterventionParameters) : ℚ :=
  if variant.seasonal then p.counterfactualReach * p.seasonalProportion
  else p.counterfactualReach

/-- Modelled from the spec: `ImpactEstimator.estimate` for mortality-type
variants (§4.1).  `reach = grantSize / costPerUnitReached`; fails with
`InvalidParameter` if `costPerUnitReached <= 0` or `grantSize <= 0`;
`baselineUnits = reach * effectiveCoverageAdjustment * mortalityRate *
effectSize`.  The stepwise grouping mirrors the spreadsheet calculation in
`scripts/debug_mc.py` (children reached, then deaths averted). -/
def estimate (variant : ProgramVariant) (p : InterventionParameters) :
    Except CEAError (ℚ × EstimateDiagnostics) :=
  if p.costPerUnitReached ≤ 0 ∨ p.grantSize ≤ 0 then .error .invalidParameter
  else
    let reach := p.grantSize / p.costPerUnitReached
    let covReach := reach * effectiveCoverageAdjustment variant p
    .ok (covReach * p.mortalityRate * p.effectSize, ⟨reach, covReach⟩)

/-- Modelled from the spec: `AdjustmentChain.apply` (§4.2).  Starting from the
running value `v`, each stage in canonical (list) order multiplies by
`1 + factor`; the per-stage intermediates are recorded and the final running
value returned.  Fails with `InvalidAdjustment` if any `1 + factor <= 0`. -/
def applyChain (v : ℚ) : List AdjustmentFactor → Except CEAError (List ℚ × ℚ)
  | [] => .ok ([], v)
  | f :: rest =>
    if 1 + f.value ≤ 0 then .error .invalidAdjustment
    else
      match applyChain (v * (1 + f.value)) rest with
      | .error e => .error e
      | .ok (t, fin) => .ok ((v * (1 + f.value)) :: t, fin)

/-- Modelled from the spec: the adjustment chain's final multiplier (§4.2
output), accumulated iteratively over the stages. -/
def finalMultiplier (fs : List AdjustmentFactor) : ℚ :=
  fs.foldl (fun m f => m * (1 + f.value)) 1

/-- Modelled from the spec: `BenchmarkEngine.initialBenchmark` (§4.3).
`costPerOutcome = grantSize / baselineUnits` (fails with
`BenchmarkUndefined` if `baselineUnits <= 0`);
`initialXBenchmark = moralWeight / (costPerOutcome * benchmarkConstant)`,
the derivation used by `scripts/debug_benchmarks.py`. -/
def initialBenchmark (grantSize baselineUnits moralWeight benchmarkConstant : ℚ) :
    Except CEAError (ℚ × ℚ) :=
  if baselineUnits ≤ 0 then .error .benchmarkUndefined
  else
    let costPerOutcome := grantSize / baselineUnits
    .ok (costPerOutcome, moralWeight / (costPerOutcome * benchmarkConstant))

/-- Modelled from the spec: `BenchmarkEngine.finalize` (§4.3).  Applies the
adjustment chain to the initial benchmark, yielding the per-stage trace and
`finalXBenchmark`; `finalCostPerOutcome = grantSize * benchmarkConstant /
finalXBenchmark`, failing with `BenchmarkUndefined` if
`finalXBenchmark == 0`. -/
def finalize (grantSize benchmarkConstant initialX : ℚ) (fs : List AdjustmentFactor) :
    Except CEAError (List ℚ × ℚ × ℚ) :=
  match applyChain initialX fs with
  | .error e => .error e
  | .ok (t, fx) =>
    if fx = 0 then .error .benchmarkUndefined
    else .ok (t, fx, grantSize * benchmarkConstant / fx)

/-- Modelled from the spec: the `BenchmarkResult` record of §3, created fresh
per evaluation, in full or not at all. -/
structure BenchmarkResult where
  baselineUnits : ℚ
  costPerOutcome : ℚ
  initialXBenchmark : ℚ
  trace : List ℚ
  finalXBenchmark : ℚ
  finalCostPerOutcome : ℚ
deriving DecidableEq, Repr

/-- Modelled from the spec: the computation stages of the §2 control flow
after registry lookup (`estimate` → `initialBenchmark` → `applyChain` →
`finalize`).  Every error is surfaced directly to the caller; a
`BenchmarkResult` is produced in full or not at all. -/
def evaluate (variant : ProgramVariant) (p : InterventionParameters)
    (benchmarkConstant : ℚ) : Except CEAError BenchmarkResult :=
  match estimate variant p with
  | .error e => .error e
  | .ok (baseline, _diag) =>
    match initialBenchmark p.grantSize baseline p.moralWeight benchmarkConstant with
    | .error e => .error e
    | .ok (cpo, ix) =>
      match finalize p.grantSize benchmarkConstant ix p.adjustments with
      | .error e => .error e
      | .ok (t, fx, fcpo) => .ok ⟨baseline, cpo, ix, t, fx, fcpo⟩

/-- Modelled from the spec: the registry lifecycle of §4.4,
`Uninitialized -> Loading -> Ready`. -/
inductive RegistryState where
  | uninitialized
  | loading
  | ready
deriving DecidableEq, Repr

/-- Modelled from the spec: `ParameterRegistry` (§4.4), an immutable mapping
from (program, region) to a validated `InterventionParameters` record,
together with its load state. -/
structure ParameterRegistry where
  state : RegistryState
  entries : List ((ProgramVariant × String) × InterventionParameters)

/-- Modelled from the spec: `ParameterRegistry.lookup` (§4.4): lookups
before the registry reaches `Ready` fail with `RegistryNotReady`; an absent
(program, region) key fails with `UnknownRegion`. -/
def ParameterRegistry.lookup (reg : ParameterRegistry) (program : ProgramVariant)
    (region : String) : Except CEAError InterventionParameters :=
  match reg.state with
  | RegistryState.ready =>
    match reg.entries.find? (fun kv => decide (kv.1 = (program, region))) with
    | none => .error .unknownRegion
    | some kv => .ok kv.2
  | _ => .error .registryNotReady

/-- Modelled from the spec: the full §2 control flow,
`ParameterRegistry.lookup` → `ImpactEstimator.estimate` →
`BenchmarkEngine.initialBenchmark` → `AdjustmentChain.apply` →
`BenchmarkEngine.finalize`. -/
def evaluateRegion (reg : ParameterRegistry) (variant : ProgramVariant)
    (region : String) (benchmarkConstant : ℚ) : Except CEAError BenchmarkResult :=
  match reg.lookup variant region with
  | .error e => .error e
  | .ok p => evaluate variant p benchmarkConstant

/-- The baseline-units formula of §4.1 as a function of the inputs (the
value `estimate` returns when its validation passes). -/
def baselineUnitsFormula (variant : ProgramVariant) (p : InterventionParameters) : ℚ :=
  p.grantSize / p.costPerUnitReached * effectiveCoverageAdjustment variant p *
    p.mortalityRate * p.effectSize

/-- Result of `compare_values` in `verify_cea_full.py`: a match flag and, for
the missing-value case, the reason string. -/
structure CompareResult where
  isMatch : Bool
  reason : Option String
deriving DecidableEq, Repr

/-- Default tolerance of `compare_values` (`tolerance: float = 0.01`). -/
def defaultTolerance : ℚ := 1 / 100

/-- Embedded from `verify_cea_full.py`, `compare_values`: `None` on either
side gives no match with reason `"missing_value"`; a spreadsheet value of
exactly `0` compares by absolute difference against the tolerance; otherwise
the relative difference `|(tool - spreadsheet) / spreadsheet|` is compared
against the tolerance. -/
def compare_values (spreadsheet_val tool_val : Option ℚ)
    (tolerance : ℚ := defaultTolerance) : CompareResult :=
  match spreadsheet_val, tool_val with
  | none, _ => ⟨false, some "missing_value"⟩
  | _, none => ⟨false, some "missing_value"⟩
  | some s, some t =>
    if s = 0 then ⟨decide (|t - s| < tolerance), none⟩
    else ⟨decide (|(t - s) / s| < tolerance), none⟩

/-- Example mortality-type parameter record used to instantiate theorems. -/
def exampleParams : InterventionParameters :=
  { grantSize := 1000000
    costPerUnitReached := 5
    mortalityRate := 1 / 250
    effectSize := 7 / 25
    counterfactualReach := 9 / 10
    seasonalProportion := 7 / 10
    moralWeight := 11625262 / 100000
    adjustments := [⟨"granteeCost", -1/25⟩, ⟨"leverage", -1/250⟩] }

/-- Parameter record with a zero cost per unit reached, used to instantiate
the validation-failure theorems. -/
def zeroCostParams : InterventionParameters :=
  { exampleParams with costPerUnitReached := 0 }

/-- A small parameter record whose full evaluation has round numbers,
used to instantiate the pipeline theorems. -/
def simpleParams : InterventionParameters :=
  { grantSize := 100
    costPerUnitReached := 2
    mortalityRate := 1
    effectSize := 1
    counterfactualReach := 1
    seasonalProportion := 1
    moralWeight := 50
    adjustments := [⟨"granteeCost", -1/2⟩] }

/-- The benchmark result produced by evaluating `simpleParams` with
benchmark constant 1. -/
def simpleResult : BenchmarkResult :=
  { baselineUnits := 50
    costPerOutcome := 2
    initialXBenchmark := 25
    trace := [25/2]
    finalXBenchmark := 25/2
    finalCostPerOutcome := 8 }

/-- The simple parameter record with the spec's `-1.2` example adjustment
fraction, whose chain must fail with `InvalidAdjustment`. -/
def badChainParams : InterventionParameters :=
  { simpleParams with adjustments := [⟨"granteeCost", -6/5⟩] }

/-- A loaded (Ready) registry holding one region, used to instantiate the
error-surfacing theorem. -/
def readyRegistry : ParameterRegistry :=
  { state := RegistryState.ready
    entries := [((ProgramVariant.netDistribution, "chad"), badChainParams)] }

/-- The productised form of the chain's stage multipliers. -/
def stageMultipliers (fs : List AdjustmentFactor) : List ℚ :=
  fs.map fun f => 1 + f.value

lemma foldl_mul_eq (v : ℚ) (fs : List AdjustmentFactor) :
    fs.foldl (fun m f => m * (1 + f.value)) v = v * (stageMultipliers fs).prod := by
  induction fs generalizing v with
  | nil => simp [stageMultipliers]
  | cons f rest ih =>
    simp only [List.foldl_cons]
    rw [ih]
    simp only [stageMultipliers, List.map_cons, List.prod_cons]
    ring

lemma finalMultiplier_eq_prod (fs : List AdjustmentFactor) :
    finalMultiplier fs = (stageMultipliers fs).prod := by
  simpa using foldl_mul_eq 1 fs

lemma applyChain_ok_of_pos (v : ℚ) (fs : List AdjustmentFactor)
    (h : ∀ f ∈ fs, 0 < 1 + f.value) :
    ∃ t, applyChain v fs = .ok (t, v * (stageMultipliers fs).prod) ∧
      t.length = fs.length ∧
      ∀ i, i < fs.length →
        t.getD i 0 = v * (stageMultipliers (fs.take (i + 1))).prod := by
  induction fs generalizing v with
  | nil =>
    exact ⟨[], by simp [applyChain, stageMultipliers], rfl, by simp⟩
  | cons f rest ih =>
    have hf : 0 < 1 + f.value := h f (List.mem_cons_self f rest)
    have hrest : ∀ g ∈ rest, 0 < 1 + g.value := fun g hg => h g (List.mem_cons_of_mem f hg)
    obtain ⟨t, ht, hlen, htrace⟩ := ih (v * (1 + f.value)) hrest
    refine ⟨v * (1 + f.value) :: t, ?_, by simp [hlen], ?_⟩
    · simp only [applyChain, if_neg (not_le.mpr hf), ht, stageMultipliers,
        List.map_cons, List.prod_cons]
      rw [mul_assoc]
    · intro i hi
      cases i with
      | zero => simp [stageMultipliers]
      | succ j =>
        have hj : j < rest.length := by simpa using hi
        simpa [stageMultipliers, List.take_cons, mul_assoc] using htrace j hj

lemma applyChain_error_iff (v : ℚ) (fs : List AdjustmentFactor) (e : CEAError) :
    applyChain v fs = .error e ↔
      e = CEAError.invalidAdjustment ∧ ∃ f ∈ fs, 1 + f.value ≤ 0 := by
  induction fs generalizing v e with
  | nil => simp [applyChain]
  | cons f rest ih =>
    by_cases hf : 1 + f.value ≤ 0
    · simp only [applyChain, if_pos hf]
      constructor
      · intro h
        injection h with h
        subst h
        exact ⟨rfl, f, List.mem_cons_self f rest, hf⟩
      · rintro ⟨rfl, -⟩
        rfl
    · cases hrec : applyChain (v * (1 + f.value)) rest with
      | error e' =>
        obtain ⟨he', g, hg, hgle⟩ := (ih (v * (1 + f.value)) e').mp hrec
        subst he'
        simp only [applyChain, if_neg hf, hrec]
        constructor
        · intro h
          injection h with h
          subst h
          exact ⟨rfl, g, List.mem_cons_of_mem f hg, hgle⟩
        · rintro ⟨rfl, -⟩
          rfl
      | ok pr =>
        obtain ⟨t, fin⟩ := pr
        simp only [applyChain, if_neg hf, hrec]
        constructor
        · intro h
          exact Except.noConfusion h
        · rintro ⟨rfl, g, hg, hgle⟩
          rcases List.mem_cons.mp hg with hgf | hgrest
          · exact absurd hgle (by simpa [hgf] using hf)
          · have herr := (ih (v * (1 + f.value)) CEAError.invalidAdjustment).mpr
              ⟨rfl, g, hgrest, hgle⟩
            rw [hrec] at herr
            exact Except.noConfusion herr

/-- Claim C1: for every mortality-type program variant and every parameter
record with positive cost per unit reached and positive grant size,
`estimate` returns `baselineUnits = (grantSize / costPerUnitReached) *
effectiveCoverageAdjustment * mortalityRate * effectSize`, where the
effective coverage adjustment folds in the counterfactual-reach proportion
and, for seasonal programs, the seasonal-exposure proportion. -/
theorem estimate_mortality_formula (variant : ProgramVariant)
    (p : InterventionParameters)
    (hc : 0 < p.costPerUnitReached) (hg : 0 < p.grantSize) :
    estimate variant p =
      Except.ok
        (p.grantSize / p.costPerUnitReached * effectiveCoverageAdjustment variant p *
            p.mortalityRate * p.effectSize,
          ⟨p.grantSize / p.costPerUnitReached,
            p.grantSize / p.costPerUnitReached * effectiveCoverageAdjustment variant p⟩) ∧
    effectiveCoverageAdjustment variant p =
      p.counterfactualReach *
        (if variant.seasonal then p.seasonalProportion else (1 : ℚ)) := by
  constructor
  · have h : ¬(p.costPerUnitReached ≤ 0 ∨ p.grantSize ≤ 0) := by
      push_neg
      exact ⟨hc, hg⟩
    simp [estimate, h]
  · unfold effectiveCoverageAdjustment
    cases variant.seasonal <;> simp

/-- Witness for C1: the seasonal-chemoprevention variant at the example
parameter record. -/
theorem estimate_mortality_formula_witness :
    estimate ProgramVariant.seasonalChemoprevention exampleParams =
      Except.ok
        (exampleParams.grantSize / exampleParams.costPerUnitReached *
            effectiveCoverageAdjustment ProgramVariant.seasonalChemoprevention exampleParams *
            exampleParams.mortalityRate * exampleParams.effectSize,
          ⟨exampleParams.grantSize / exampleParams.costPerUnitReached,
            exampleParams.grantSize / exampleParams.costPerUnitReached *
              effectiveCoverageAdjustment ProgramVariant.seasonalChemoprevention exampleParams⟩) ∧
    effectiveCoverageAdjustment ProgramVariant.seasonalChemoprevention exampleParams =
      exampleParams.counterfactualReach *
        (if (ProgramVariant.seasonalChemoprevention).seasonal then
          exampleParams.seasonalProportion else (1 : ℚ)) :=
  estimate_mortality_formula ProgramVariant.seasonalChemoprevention exampleParams
    (by norm_num [exampleParams]) (by norm_num [exampleParams])

/-- Claim C2: with a positive baseline the benchmark engine returns
`costPerOutcome = grantSize / baselineUnits` and
`initialXBenchmark = moralWeight / (costPerOutcome * benchmarkConstant)`;
equivalently, `moralWeight / (costPerOutcome * initialXBenchmark)` recovers
the benchmark constant. -/
theorem initialBenchmark_formula (g b mw K : ℚ)
    (hb : 0 < b) (hg : 0 < g) (hmw : 0 < mw) (hK : 0 < K) :
    initialBenchmark g b mw K = Except.ok (g / b, mw / (g / b * K)) ∧
    mw / (g / b * (mw / (g / b * K))) = K := by
  have hb' : ¬ b ≤ 0 := not_le.mpr hb
  refine ⟨by simp [initialBenchmark, hb'], ?_⟩
  have h1 : g ≠ 0 := hg.ne'
  have h2 : b ≠ 0 := hb.ne'
  have h3 : mw ≠ 0 := hmw.ne'
  have h4 : K ≠ 0 := hK.ne'
  field_simp
  ring

/-- Witness for C2: grant 100, baseline 50, moral weight 100, benchmark
constant 2. -/
theorem initialBenchmark_formula_witness :
    initialBenchmark 100 50 100 2 =
      Except.ok ((100 : ℚ) / 50, (100 : ℚ) / ((100 : ℚ) / 50 * 2)) ∧
    (100 : ℚ) / ((100 : ℚ) / 50 * ((100 : ℚ) / ((100 : ℚ) / 50 * 2))) = 2 :=
  initialBenchmark_formula 100 50 100 2 (by norm_num) (by norm_num)
    (by norm_num) (by norm_num)

/-- Claim C5: applying the adjustment chain fails with `InvalidAdjustment`
exactly when some stage's factor has `1 + factor <= 0`; when every factor
has `1 + factor > 0`, the chain succeeds and no such error is raised. -/
theorem applyChain_invalidAdjustment_iff (v : ℚ) (fs : List AdjustmentFactor) :
    (applyChain v fs = Except.error CEAError.invalidAdjustment ↔
      ∃ f ∈ fs, 1 + f.value ≤ 0) ∧
    ((∃ r, applyChain v fs = Except.ok r) ↔ ∀ f ∈ fs, 0 < 1 + f.value) := by
  constructor
  · rw [applyChain_error_iff]
    simp
  · constructor
    · rintro ⟨r, hr⟩ f hf
      by_contra hle
      push_neg at hle
      have herr := (applyChain_error_iff v fs CEAError.invalidAdjustment).mpr
        ⟨rfl, f, hf, hle⟩
      rw [herr] at hr
      exact Except.noConfusion hr
    · intro hpos
      obtain ⟨t, ht, -⟩ := applyChain_ok_of_pos v fs hpos
      exact ⟨(t, v * (stageMultipliers fs).prod), ht⟩

/-- Claim C6: `estimate` fails with `InvalidParameter` exactly when
`costPerUnitReached <= 0` or `grantSize <= 0` (including cost exactly 0),
and returns a value exactly when both are strictly positive. -/
theorem estimate_invalidParameter_iff (variant : ProgramVariant)
    (p : InterventionParameters) :
    (estimate variant p = Except.error CEAError.invalidParameter ↔
      p.costPerUnitReached ≤ 0 ∨ p.grantSize ≤ 0) ∧
    ((∃ r, estimate variant p = Except.ok r) ↔
      0 < p.costPerUnitReached ∧ 0 < p.grantSize) := by
  constructor
  · constructor
    · intro hr
      by_contra hcon
      push_neg at hcon
      have h : ¬(p.costPerUnitReached ≤ 0 ∨ p.grantSize ≤ 0) := by
        push_neg
        exact hcon
      simp [estimate, h] at hr
    · intro h
      simp [estimate, h]
  · constructor
    · rintro ⟨r, hr⟩
      constructor
      · by_contra hc
        push_neg at hc
        simp [estimate, Or.inl hc] at hr
      · by_contra hg
        push_neg at hg
        simp [estimate, Or.inr hg] at hr
    · rintro ⟨hc, hg⟩
      have h : ¬(p.costPerUnitReached ≤ 0 ∨ p.grantSize ≤ 0) := by
        push_neg
        exact ⟨hc, hg⟩
      exact ⟨(p.grantSize / p.costPerUnitReached *
          effectiveCoverageAdjustment variant p * p.mortalityRate * p.effectSize,
        ⟨p.grantSize / p.costPerUnitReached,
          p.grantSize / p.costPerUnitReached * effectiveCoverageAdjustment variant p⟩),
        by simp [estimate, h]⟩

lemma stageMultipliers_cons (f : AdjustmentFactor) (fs : List AdjustmentFactor) :
    stageMultipliers (f :: fs) = (1 + f.value) :: stageMultipliers fs := rfl

lemma stageMultipliers_take_succ_prod (fs : List AdjustmentFactor) (i : ℕ)
    (hi : i < fs.length) :
    (stageMultipliers (fs.take (i + 1))).prod =
      (stageMultipliers (fs.take i)).prod * (1 + (fs.getD i ⟨"", 0⟩).value) := by
  induction fs generalizing i with
  | nil => simp at hi
  | cons f rest ih =>
    cases i with
    | zero => simp [stageMultipliers]
    | succ j =>
      have hj : j < rest.length := by simpa using hi
      simp only [List.take_succ_cons, List.getD_cons_succ, stageMultipliers_cons,
        List.prod_cons]
      rw [ih j hj]
      ring

lemma applyChain_ok_final {v : ℚ} {fs : List AdjustmentFactor} {t : List ℚ} {fx : ℚ}
    (h : applyChain v fs = .ok (t, fx)) : fx = v * finalMultiplier fs := by
  have hpos : ∀ f ∈ fs, 0 < 1 + f.value :=
    ((applyChain_invalidAdjustment_iff v fs).2).mp ⟨(t, fx), h⟩
  obtain ⟨t', ht', -, -⟩ := applyChain_ok_of_pos v fs hpos
  rw [h] at ht'
  injection ht' with hpair
  have h2 := congrArg Prod.snd hpair
  simpa [finalMultiplier_eq_prod] using h2

lemma evaluate_ok_inversion {variant : ProgramVariant} {p : InterventionParameters}
    {K : ℚ} {r : BenchmarkResult} (h : evaluate variant p K = .ok r) :
    ¬(p.costPerUnitReached ≤ 0 ∨ p.grantSize ≤ 0) ∧
    r.baselineUnits =
      p.grantSize / p.costPerUnitReached * effectiveCoverageAdjustment variant p *
        p.mortalityRate * p.effectSize ∧
    ¬ r.baselineUnits ≤ 0 ∧
    r.costPerOutcome = p.grantSize / r.baselineUnits ∧
    r.initialXBenchmark = p.moralWeight / (r.costPerOutcome * K) ∧
    applyChain r.initialXBenchmark p.adjustments = .ok (r.trace, r.finalXBenchmark) ∧
    r.finalXBenchmark ≠ 0 ∧
    r.finalCostPerOutcome = p.grantSize * K / r.finalXBenchmark := by
  unfold evaluate at h
  split at h
  next e he => exact Except.noConfusion h
  next baseline diag he =>
    have hcond : ¬(p.costPerUnitReached ≤ 0 ∨ p.grantSize ≤ 0) := by
      intro hcon
      simp [estimate, hcon] at he
    simp only [estimate, if_neg hcond, Except.ok.injEq, Prod.mk.injEq] at he
    obtain ⟨hbase, -⟩ := he
    split at h
    next e hib => exact Except.noConfusion h
    next cpo ix hib =>
      have hbpos : ¬ baseline ≤ 0 := by
        intro hble
        simp [initialBenchmark, hble] at hib
      simp only [initialBenchmark, if_neg hbpos, Except.ok.injEq, Prod.mk.injEq] at hib
      obtain ⟨hcpo, hix⟩ := hib
      split at h
      next e hfin => exact Except.noConfusion h
      next t fx fcpo hfin =>
        unfold finalize at hfin
        split at hfin
        next e hac => exact Except.noConfusion hfin
        next t' fx' hac =>
          split at hfin
          next hfx0 => exact Except.noConfusion hfin
          next hfx0 =>
            injection hfin with hfin
            injection hfin with h1 hrest
            injection hrest with h2 h3
            subst h1
            subst h2
            subst h3
            injection h with h
            subst h
            exact ⟨hcond, hbase.symm, hbpos, hcpo.symm, by rw [← hix, ← hcpo], hac,
              hfx0, rfl⟩

/-- Claim C3: for an initial benchmark `v0` and factors with `1 + factor > 0`,
`applyChain` produces the trace `v_i = v_(i-1) * (1 + factor_i)` in canonical
stage order, and the finalized benchmark is the initial benchmark times the
chain's final multiplier, the product of all `1 + factor_i`. -/
theorem applyChain_trace_finalize (v0 : ℚ) (fs : List AdjustmentFactor)
    (hpos : ∀ f ∈ fs, 0 < 1 + f.value) :
    ∃ t, applyChain v0 fs = Except.ok (t, v0 * finalMultiplier fs) ∧
      finalMultiplier fs = (stageMultipliers fs).prod ∧
      t.length = fs.length ∧
      (∀ i, i < fs.length →
        t.getD i 0 =
          (if i = 0 then v0 else t.getD (i - 1) 0) *
            (1 + (fs.getD i ⟨"", 0⟩).value)) ∧
      (∀ g K, v0 * finalMultiplier fs ≠ 0 →
        finalize g K v0 fs =
          Except.ok (t, v0 * finalMultiplier fs, g * K / (v0 * finalMultiplier fs))) := by
  obtain ⟨t, ht, hlen, htrace⟩ := applyChain_ok_of_pos v0 fs hpos
  refine ⟨t, ?_, finalMultiplier_eq_prod fs, hlen, ?_, ?_⟩
  · rw [finalMultiplier_eq_prod]
    exact ht
  · intro i hi
    cases i with
    | zero =>
      have h0 := htrace 0 hi
      rw [h0, stageMultipliers_take_succ_prod fs 0 hi]
      simp [stageMultipliers]
    | succ j =>
      have hj : j < fs.length := Nat.lt_of_succ_lt hi
      have hsucc := htrace (j + 1) hi
      have hprev := htrace j hj
      rw [hsucc, stageMultipliers_take_succ_prod fs (j + 1) hi]
      simp only [Nat.succ_ne_zero, if_false, Nat.add_sub_cancel]
      rw [hprev]
      ring
  · intro g K hne
    rw [finalMultiplier_eq_prod] at hne ⊢
    simp [finalize, ht, hne]

/-- Witness for C3: the two-stage adjustment chain of the example parameter
record applied to the initial benchmark 10. -/
theorem applyChain_trace_finalize_witness :
    ∃ t, applyChain 10 exampleParams.adjustments =
        Except.ok (t, 10 * finalMultiplier exampleParams.adjustments) ∧
      finalMultiplier exampleParams.adjustments =
        (stageMultipliers exampleParams.adjustments).prod ∧
      t.length = exampleParams.adjustments.length ∧
      (∀ i, i < exampleParams.adjustments.length →
        t.getD i 0 =
          (if i = 0 then (10 : ℚ) else t.getD (i - 1) 0) *
            (1 + (exampleParams.adjustments.getD i ⟨"", 0⟩).value)) ∧
      (∀ g K, (10 : ℚ) * finalMultiplier exampleParams.adjustments ≠ 0 →
        finalize g K 10 exampleParams.adjustments =
          Except.ok (t, 10 * finalMultiplier exampleParams.adjustments,
            g * K / (10 * finalMultiplier exampleParams.adjustments))) :=
  applyChain_trace_finalize 10 exampleParams.adjustments
    (by
      intro f hf
      simp only [exampleParams, List.mem_cons, List.not_mem_nil, or_false] at hf
      rcases hf with rfl | rfl <;> norm_num)

/-- Claim C4: every successful evaluation satisfies the round-trip equation
`finalCostPerOutcome * finalXBenchmark = grantSize * benchmarkConstant`
(exactly, over exact rational arithmetic, hence within any tolerance). -/
theorem roundTrip_invariant (variant : ProgramVariant) (p : InterventionParameters)
    (K : ℚ) (r : BenchmarkResult) (h : evaluate variant p K = Except.ok r) :
    r.finalCostPerOutcome * r.finalXBenchmark = p.grantSize * K := by
  obtain ⟨-, -, -, -, -, -, hfx, hfc⟩ := evaluate_ok_inversion h
  rw [hfc]
  exact div_mul_cancel₀ _ hfx

/-- Witness for C4: the full pipeline at the simple parameter record with
benchmark constant 1. -/
theorem roundTrip_invariant_witness :
    evaluate ProgramVariant.netDistribution simpleParams 1 = Except.ok simpleResult ∧
    simpleResult.finalCostPerOutcome * simpleResult.finalXBenchmark =
      simpleParams.grantSize * 1 := by
  have h1 : estimate ProgramVariant.netDistribution simpleParams =
      Except.ok (50, ⟨50, 50⟩) := by
    norm_num [estimate, simpleParams, effectiveCoverageAdjustment,
      ProgramVariant.seasonal]
  have h2 : initialBenchmark simpleParams.grantSize 50 simpleParams.moralWeight 1 =
      Except.ok (2, 25) := by
    norm_num [initialBenchmark, simpleParams]
  have hac : applyChain 25 simpleParams.adjustments = Except.ok ([25/2], 25/2) := by
    norm_num [applyChain, simpleParams]
  have h3 : finalize simpleParams.grantSize 1 25 simpleParams.adjustments =
      Except.ok ([25/2], 25/2, 8) := by
    rw [finalize, hac]
    norm_num [simpleParams]
  have hev : evaluate ProgramVariant.netDistribution simpleParams 1 =
      Except.ok simpleResult := by
    simp only [evaluate, h1, h2, h3]
    rfl
  exact ⟨hev,
    roundTrip_invariant ProgramVariant.netDistribution simpleParams 1 simpleResult hev⟩

lemma estimate_ok_cond (variant : ProgramVariant) (p : InterventionParameters)
    (h : ¬(p.costPerUnitReached ≤ 0 ∨ p.grantSize ≤ 0)) :
    estimate variant p =
      .ok (baselineUnitsFormula variant p,
        ⟨p.grantSize / p.costPerUnitReached,
          p.grantSize / p.costPerUnitReached * effectiveCoverageAdjustment variant p⟩) := by
  simp [estimate, h, baselineUnitsFormula]

lemma lookup_notReady (reg : ParameterRegistry) (program : ProgramVariant)
    (region : String) (h : reg.state ≠ RegistryState.ready) :
    reg.lookup program region = .error .registryNotReady := by
  unfold ParameterRegistry.lookup
  cases hs : reg.state with
  | uninitialized => rfl
  | loading => rfl
  | ready => exact absurd hs h

lemma lookup_unknown (reg : ParameterRegistry) (program : ProgramVariant)
    (region : String) (h1 : reg.state = RegistryState.ready)
    (h2 : reg.entries.find? (fun kv => decide (kv.1 = (program, region))) = none) :
    reg.lookup program region = .error .unknownRegion := by
  simp [ParameterRegistry.lookup, h1, h2]

lemma evaluate_error_invalidParameter (variant : ProgramVariant)
    (p : InterventionParameters) (K : ℚ)
    (h : p.costPerUnitReached ≤ 0 ∨ p.grantSize ≤ 0) :
    evaluate variant p K = .error .invalidParameter := by
  simp [evaluate, estimate, h]

lemma evaluate_error_baselineUndefined (variant : ProgramVariant)
    (p : InterventionParameters) (K : ℚ)
    (hc : 0 < p.costPerUnitReached) (hg : 0 < p.grantSize)
    (hb : baselineUnitsFormula variant p ≤ 0) :
    evaluate variant p K = .error .benchmarkUndefined := by
  have hcond : ¬(p.costPerUnitReached ≤ 0 ∨ p.grantSize ≤ 0) := by
    push_neg
    exact ⟨hc, hg⟩
  have he := estimate_ok_cond variant p hcond
  have hib : initialBenchmark p.grantSize (baselineUnitsFormula variant p)
      p.moralWeight K = .error .benchmarkUndefined := by
    simp [initialBenchmark, hb]
  simp [evaluate, he, hib]

lemma evaluate_error_invalidAdjustment (variant : ProgramVariant)
    (p : InterventionParameters) (K : ℚ)
    (hc : 0 < p.costPerUnitReached) (hg : 0 < p.grantSize)
    (hb : 0 < baselineUnitsFormula variant p)
    (hbad : ∃ f ∈ p.adjustments, 1 + f.value ≤ 0) :
    evaluate variant p K = .error .invalidAdjustment := by
  have hcond : ¬(p.costPerUnitReached ≤ 0 ∨ p.grantSize ≤ 0) := by
    push_neg
    exact ⟨hc, hg⟩
  have he := estimate_ok_cond variant p hcond
  have hb' : ¬ baselineUnitsFormula variant p ≤ 0 := not_le.mpr hb
  have hib : initialBenchmark p.grantSize (baselineUnitsFormula variant p)
      p.moralWeight K =
      .ok (p.grantSize / baselineUnitsFormula variant p,
        p.moralWeight / (p.grantSize / baselineUnitsFormula variant p * K)) := by
    simp [initialBenchmark, hb']
  have hac : applyChain
      (p.moralWeight / (p.grantSize / baselineUnitsFormula variant p * K))
      p.adjustments = .error .invalidAdjustment :=
    (applyChain_error_iff _ _ _).mpr ⟨rfl, hbad⟩
  have hfin : finalize p.grantSize K
      (p.moralWeight / (p.grantSize / baselineUnitsFormula variant p * K))
      p.adjustments = .error .invalidAdjustment := by
    simp [finalize, hac]
  simp [evaluate, he, hib, hfin]

lemma evaluate_error_finalUndefined (variant : ProgramVariant)
    (p : InterventionParameters) (K : ℚ)
    (hc : 0 < p.costPerUnitReached) (hg : 0 < p.grantSize)
    (hb : 0 < baselineUnitsFormula variant p)
    (hpos : ∀ f ∈ p.adjustments, 0 < 1 + f.value)
    (hfx : p.moralWeight / (p.grantSize / baselineUnitsFormula variant p * K) *
      finalMultiplier p.adjustments = 0) :
    evaluate variant p K = .error .benchmarkUndefined := by
  have hcond : ¬(p.costPerUnitReached ≤ 0 ∨ p.grantSize ≤ 0) := by
    push_neg
    exact ⟨hc, hg⟩
  have he := estimate_ok_cond variant p hcond
  have hb' : ¬ baselineUnitsFormula variant p ≤ 0 := not_le.mpr hb
  have hib : initialBenchmark p.grantSize (baselineUnitsFormula variant p)
      p.moralWeight K =
      .ok (p.grantSize / baselineUnitsFormula variant p,
        p.moralWeight / (p.grantSize / baselineUnitsFormula variant p * K)) := by
    simp [initialBenchmark, hb']
  obtain ⟨t, ht, -, -⟩ := applyChain_ok_of_pos
    (p.moralWeight / (p.grantSize / baselineUnitsFormula variant p * K))
    p.adjustments hpos
  have hfx' : p.moralWeight / (p.grantSize / baselineUnitsFormula variant p * K) *
      (stageMultipliers p.adjustments).prod = 0 := by
    rw [← finalMultiplier_eq_prod]
    exact hfx
  have hfin : finalize p.grantSize K
      (p.moralWeight / (p.grantSize / baselineUnitsFormula variant p * K))
      p.adjustments = .error .benchmarkUndefined := by
    simp [finalize, ht, hfx']
  simp [evaluate, he, hib, hfin]

/-- Claim C7: every validation failure — `RegistryNotReady`, `UnknownRegion`,
`InvalidParameter`, `InvalidAdjustment`, `BenchmarkUndefined` — is surfaced
directly to the caller of the full pipeline with its specific reason, and a
`BenchmarkResult` is produced in full or not at all: every field of a
successful result is exactly the specified function of the looked-up
parameters, never a substituted default. -/
theorem evaluateRegion_error_surfacing (reg : ParameterRegistry)
    (variant : ProgramVariant) (region : String) (K : ℚ) :
    (∀ p r, reg.lookup variant region = Except.ok p →
      evaluateRegion reg variant region K = Except.ok r →
      r.baselineUnits = baselineUnitsFormula variant p ∧
      r.costPerOutcome = p.grantSize / r.baselineUnits ∧
      r.initialXBenchmark = p.moralWeight / (r.costPerOutcome * K) ∧
      r.finalXBenchmark = r.initialXBenchmark * finalMultiplier p.adjustments ∧
      r.finalCostPerOutcome = p.grantSize * K / r.finalXBenchmark) ∧
    (∀ r, evaluateRegion reg variant region K = Except.ok r →
      ∃ p, reg.lookup variant region = Except.ok p) ∧
    (reg.state ≠ RegistryState.ready →
      evaluateRegion reg variant region K = Except.error CEAError.registryNotReady) ∧
    (reg.state = RegistryState.ready →
      reg.entries.find? (fun kv => decide (kv.1 = (variant, region))) = none →
      evaluateRegion reg variant region K = Except.error CEAError.unknownRegion) ∧
    (∀ p, reg.lookup variant region = Except.ok p →
      p.costPerUnitReached ≤ 0 ∨ p.grantSize ≤ 0 →
      evaluateRegion reg variant region K = Except.error CEAError.invalidParameter) ∧
    (∀ p, reg.lookup variant region = Except.ok p →
      0 < p.costPerUnitReached → 0 < p.grantSize →
      baselineUnitsFormula variant p ≤ 0 →
      evaluateRegion reg variant region K = Except.error CEAError.benchmarkUndefined) ∧
    (∀ p, reg.lookup variant region = Except.ok p →
      0 < p.costPerUnitReached → 0 < p.grantSize →
      0 < baselineUnitsFormula variant p →
      (∃ f ∈ p.adjustments, 1 + f.value ≤ 0) →
      evaluateRegion reg variant region K = Except.error CEAError.invalidAdjustment) ∧
    (∀ p, reg.lookup variant region = Except.ok p →
      0 < p.costPerUnitReached → 0 < p.grantSize →
      0 < baselineUnitsFormula variant p →
      (∀ f ∈ p.adjustments, 0 < 1 + f.value) →
      p.moralWeight / (p.grantSize / baselineUnitsFormula variant p * K) *
        finalMultiplier p.adjustments = 0 →
      evaluateRegion reg variant region K = Except.error CEAError.benchmarkUndefined) := by
  refine ⟨?_, ?_, ?_, ?_, ?_, ?_, ?_, ?_⟩
  · intro p r hlk hev
    simp only [evaluateRegion, hlk] at hev
    obtain ⟨-, hb, -, hcpo, hix, hac, -, hfc⟩ := evaluate_ok_inversion hev
    exact ⟨by simpa [baselineUnitsFormula] using hb, hcpo, hix,
      applyChain_ok_final hac, hfc⟩
  · intro r hev
    cases hlk : reg.lookup variant region with
    | error e =>
      simp only [evaluateRegion, hlk] at hev
      exact Except.noConfusion hev
    | ok p => exact ⟨p, rfl⟩
  · intro h
    simp [evaluateRegion, lookup_notReady reg variant region h]
  · intro h1 h2
    simp [evaluateRegion, lookup_unknown reg variant region h1 h2]
  · intro p hlk hbad
    simp [evaluateRegion, hlk, evaluate_error_invalidParameter variant p K hbad]
  · intro p hlk hc hg hb
    simp [evaluateRegion, hlk,
      evaluate_error_baselineUndefined variant p K hc hg hb]
  · intro p hlk hc hg hb hbad
    simp [evaluateRegion, hlk,
      evaluate_error_invalidAdjustment variant p K hc hg hb hbad]
  · intro p hlk hc hg hb hpos hfx
    simp [evaluateRegion, hlk,
      evaluate_error_finalUndefined variant p K hc hg hb hpos hfx]

/-- Witness for C7: in a Ready registry, the region whose chain carries the
spec's `-1.2` example fraction surfaces `InvalidAdjustment` through the full
pipeline. -/
theorem evaluateRegion_error_surfacing_witness :
    evaluateRegion readyRegistry ProgramVariant.netDistribution "chad" 1 =
      Except.error CEAError.invalidAdjustment := by
  have hlk : readyRegistry.lookup ProgramVariant.netDistribution "chad" =
      Except.ok badChainParams := by
    simp [ParameterRegistry.lookup, readyRegistry]
  exact (evaluateRegion_error_surfacing readyRegistry ProgramVariant.netDistribution
      "chad" 1).2.2.2.2.2.2.1 badChainParams hlk
    (by norm_num [badChainParams, simpleParams])
    (by norm_num [badChainParams, simpleParams])
    (by norm_num [baselineUnitsFormula, effectiveCoverageAdjustment,
      ProgramVariant.seasonal, badChainParams, simpleParams])
    ⟨⟨"granteeCost", -6/5⟩, by simp [badChainParams], by norm_num⟩

/-- Claim C9: two adjustment chains that are permutations of the same factor
set have the same final multiplier regardless of stage order (exactly, over
exact rational arithmetic). -/
theorem finalMultiplier_perm_invariant (fs gs : List AdjustmentFactor)
    (h : fs.Perm gs) : finalMultiplier fs = finalMultiplier gs := by
  rw [finalMultiplier_eq_prod, finalMultiplier_eq_prod]
  simp only [stageMultipliers]
  exact (h.map fun f => 1 + f.value).prod_eq

/-- Witness for C9: a two-factor chain and its reversal. -/
theorem finalMultiplier_perm_invariant_witness :
    finalMultiplier [⟨"leverage", 1/10⟩, ⟨"funging", -1/20⟩] =
      finalMultiplier [⟨"funging", -1/20⟩, ⟨"leverage", 1/10⟩] :=
  finalMultiplier_perm_invariant _ _
    (List.Perm.swap (⟨"funging", -1/20⟩ : AdjustmentFactor) ⟨"leverage", 1/10⟩ [])

/-- Claim C10: `compare_values` reports no match with reason
`"missing_value"` when either value is `None`; for a spreadsheet value of
exactly 0 it matches iff the absolute difference is below the tolerance;
otherwise it matches iff the relative difference
`|(tool - spreadsheet) / spreadsheet|` is below the tolerance, whose
default is 0.01. -/
theorem compare_values_spec (s t tol : ℚ) :
    (∀ ov, compare_values none ov tol = ⟨false, some "missing_value"⟩) ∧
    compare_values (some s) none tol = ⟨false, some "missing_value"⟩ ∧
    (s = 0 →
      ((compare_values (some s) (some t) tol).isMatch = true ↔ |t - s| < tol)) ∧
    (s ≠ 0 →
      ((compare_values (some s) (some t) tol).isMatch = true ↔
        |(t - s) / s| < tol)) ∧
    defaultTolerance = 1 / 100 := by
  refine ⟨?_, rfl, ?_, ?_, rfl⟩
  · intro ov
    cases ov <;> rfl
  · intro hs
    simp [compare_values, hs]
  · intro hs
    simp [compare_values, hs]

/-- Witness for C10: a spreadsheet value of exactly 0 and a tool value of
1/200 match at the default tolerance 1/100. -/
theorem compare_values_spec_witness :
    (compare_values (some 0) (some (1/200)) (1/100)).isMatch = true :=
  ((compare_values_spec 0 (1/200) (1/100)).2.2.1 rfl).mpr
    (by rw [sub_zero, abs_of_pos] <;> norm_num)

end GiveWellCEA

